import Mathlib

/-!
# Verification of the coverage cache orchestration of vscode-coverage-gutters

Shallow embedding of `src/coverage-system/coverageservice.ts` (class
`CoverageService`) and of the `StatusBarToggler` presenter it drives.

Modelling conventions:
* lcov `Section` records carry mandatory line statistics and optional branch
  statistics, matching the data model used by the service.
* The cache `Map<string, Section>` is modelled as an association list; the
  service only ever iterates it (`forEach`) or replaces it wholesale.
* JavaScript numbers that can arise from the percentage arithmetic are
  modelled by `JsNum`: a finite integer (every finite value produced here is
  a `Math.round` result), `NaN`, or `+Infinity`.  `Math.round x` is
  `⌊x + 1/2⌋`, computed on exact rationals.
* The asynchronous refresh cycle is embedded as a function from an
  environment (the outcomes of the delegated collaborators) and the service
  state to a new state, a trace of observable events, and a completion flag
  (`false` means the cycle terminated by throwing).  `await` points are the
  collaborator events themselves.
-/

namespace CoverageGutters

/-- Summary counters of one coverage dimension (`{hit, found}`). -/
structure CoverageStats where
  hit : Nat
  found : Nat
deriving DecidableEq, Repr

/-- An lcov-parse `Section` as consumed by the service: per-file line
statistics, with branch statistics possibly absent. -/
structure Section where
  lines : CoverageStats
  branches : Option CoverageStats
deriving DecidableEq, Repr

/-- The cache `Map<string, Section>`, as an association list. -/
abbrev Cache := List (String × Section)

/-- A JavaScript number as produced by the percentage arithmetic of
`setStatusBarCoverage`: a finite (integral) value, `NaN`, or `+Infinity`. -/
inductive JsNum where
  | int : Int → JsNum
  | nan : JsNum
  | inf : JsNum
deriving DecidableEq, Repr

/-- `Math.round` on an exact rational: `⌊q + 1/2⌋`. -/
def jround (q : Rat) : Int := ⌊q + 1/2⌋

/-- `Math.round((hit / found) * 100)` with JavaScript division semantics,
where either operand may be `undefined` (an absent field reached through
optional chaining): `undefined` arithmetic gives `NaN`; `0/0` gives `NaN`;
`h/0` with `h > 0` gives `+Infinity`. -/
def pctOf (hit found : Option Nat) : JsNum :=
  match hit, found with
  | some h, some f =>
    if f = 0 then (if h = 0 then .nan else .inf)
    else .int (jround ((h : Rat) / (f : Rat) * 100))
  | _, _ => .nan

/-- JavaScript `x || d` for `x` an optionally-absent natural number:
`undefined` and `0` are falsy. -/
def jsOr (x : Option Nat) (d : Nat) : Nat :=
  match x with
  | some n => if n = 0 then d else n
  | none => d

/-- `total_lines_hit` accumulated by the `sections.forEach` loop of
`setStatusBarCoverage`. -/
def totalLinesHit (sections : Cache) : Nat :=
  sections.foldl (fun acc it => acc + it.2.lines.hit) 0

/-- `total_lines_found` accumulated by the `sections.forEach` loop. -/
def totalLinesFound (sections : Cache) : Nat :=
  sections.foldl (fun acc it => acc + it.2.lines.found) 0

/-- `total_branches_hit` accumulated by the loop: `it?.branches?.hit || 0`. -/
def totalBranchesHit (sections : Cache) : Nat :=
  sections.foldl (fun acc it => acc + jsOr (it.2.branches.map (fun b => b.hit)) 0) 0

/-- `total_branches_found` accumulated by the loop:
`it?.branches?.found || 0`. -/
def totalBranchesFound (sections : Cache) : Nat :=
  sections.foldl (fun acc it => acc + jsOr (it.2.branches.map (fun b => b.found)) 0) 0

/-- The argument list of a call to `StatusBarToggler.setCoverage` issued by
`setStatusBarCoverage`: either `setCoverage(undefined)` or a full
four-argument call. -/
inductive SetCoverageCall where
  | noCoverage : SetCoverageCall
  | values : JsNum → JsNum → JsNum → JsNum → SetCoverageCall
deriving DecidableEq, Repr

/-- `CoverageService.setStatusBarCoverage(sections, textEditor)`.
`finderResult` is the list returned by the delegated
`sectionFinder.findSectionsForEditor`; the code destructures its first
element.  `hasEditor = false` is the `!textEditor` early return.  The
body is total, so the surrounding `try/catch` never reaches its `catch`
branch in the model. -/
def setStatusBarCoverage (finderResult : List Section) (hasEditor : Bool)
    (sections : Cache) : SetCoverageCall :=
  if hasEditor = false then .noCoverage else
  let fileCoverage := finderResult.head?
  let covered := fileCoverage.map (fun s => s.lines.hit)
  let total := fileCoverage.map (fun s => s.lines.found)
  let bCovered := jsOr ((fileCoverage.bind (fun s => s.branches)).map (fun b => b.hit)) 0
  let bTotal := jsOr ((fileCoverage.bind (fun s => s.branches)).map (fun b => b.found)) 1
  let coverage := pctOf covered total
  let totalCoverage :=
    if totalLinesFound sections = 0 then JsNum.int 0
    else JsNum.int (jround ((totalLinesHit sections : Rat) / (totalLinesFound sections : Rat) * 100))
  let bCoverage := pctOf (some bCovered) (some bTotal)
  let bTotalCoverage :=
    if totalBranchesFound sections = 0 then JsNum.int 0
    else JsNum.int (jround ((totalBranchesHit sections : Rat) / (totalBranchesFound sections : Rat) * 100))
  .values coverage totalCoverage bCoverage bTotalCoverage

/-- The observable state of `StatusBarToggler` relevant to `setCoverage`:
`lineCoverage` (the coverage text, `undefined` when cleared) and the
`isWarn` flag.  The derived status-bar item itself is an external UI
resource and is not modelled. -/
structure TogglerState where
  isActive : Option Bool
  isLoading : Bool
  lineCoverage : Option String
  isWarn : Bool
deriving DecidableEq, Repr

/-- `Number.isFinite(x)` for an argument of type `number | undefined`. -/
def isFinite : Option JsNum → Bool
  | some (.int _) => true
  | _ => false

/-- JavaScript `x || 0` coerced for the `< 60` / `< 40` comparisons of
`setCoverage`.  The guard `Number.isFinite` has already held when this is
evaluated, so the argument is a finite integer there; `0` is falsy. -/
def jsOrZero : Option JsNum → Int
  | some (.int z) => if z = 0 then 0 else z
  | _ => 0

/-- JavaScript template-literal coercion of a `number | undefined` value. -/
def jsText : Option JsNum → String
  | some (.int z) => toString z
  | some .nan => "NaN"
  | some .inf => "Infinity"
  | none => "undefined"

/-- `StatusBarToggler.setCoverage(linePercentage, totalLinePercentage,
branchPercentage, totalBranchPercentage)`.  `this.isWarn = false` runs
first; then the nested `Number.isFinite` tests select the text format. -/
def setCoverage (st : TogglerState)
    (linePercentage totalLinePercentage branchPercentage totalBranchPercentage :
      Option JsNum) : TogglerState :=
  let st1 := { st with isWarn := false }
  if isFinite linePercentage then
    if isFinite totalLinePercentage then
      if isFinite branchPercentage && isFinite totalBranchPercentage then
        let warn := jsOrZero totalLinePercentage < 60 ∨ jsOrZero totalBranchPercentage < 40
        let lp := jsText linePercentage
        let bp := jsText branchPercentage
        let tlp := jsText totalLinePercentage
        let tbp := jsText totalBranchPercentage
        { st1 with isWarn := decide warn,
                   lineCoverage := some s!"{lp},{bp}%/{tlp},{tbp}%" }
      else
        let lp := jsText linePercentage
        let tlp := jsText totalLinePercentage
        { st1 with lineCoverage := some s!"{lp}%/{tlp}%" }
    else
      let lp := jsText linePercentage
      { st1 with lineCoverage := some s!"{lp}%" }
  else
    { st1 with lineCoverage := none }

/-- Deliver a `SetCoverageCall` produced by `setStatusBarCoverage` to the
presenter. -/
def applyCall (st : TogglerState) : SetCoverageCall → TogglerState
  | .noCoverage => setCoverage st none none none none
  | .values a b c d => setCoverage st (some a) (some b) (some c) (some d)

/-- The `Status` enum of coverageservice.ts. -/
inductive Status where
  | ready : Status
  | initializing : Status
  | loading : Status
  | rendering : Status
  | error : Status
deriving DecidableEq, Repr

/-- An observable event of a refresh cycle.  `discover`, `readFiles` and
`parse` are the `await`ed collaborator calls (the suspension points);
`stateLog` is `updateServiceState` (which only appends a timestamped line
to the output channel — there is no stored state variable); `logLine` is a
plain diagnostic `appendLine`; `cacheWrite` is the atomic
`this.cache = dataCoverage` assignment. -/
inductive Event where
  | stateLog : Status → Event
  | logLine : Event
  | setLoading : Bool → Event
  | discover : Event
  | readFiles : Event
  | parse : Event
  | cacheWrite : Cache → Event
  | render : Cache → Event
  | statusCoverage : SetCoverageCall → Event
deriving DecidableEq, Repr

/-- Whether an event is a suspension point (an `await` of a collaborator). -/
def isSuspension : Event → Bool
  | .discover => true
  | .readFiles => true
  | .parse => true
  | _ => false

/-- Outcomes of the delegated collaborators during one cycle:
`Except.error` means the awaited promise rejected (the call threw). -/
structure Env where
  findCoverageFiles : Except Unit (List String)
  loadDataFiles : Except Unit (List (String × String))
  filesToSections : Except Unit Cache
  renderOk : Bool
  hasActiveEditor : Bool
  finderResult : List Section

/-- The mutable fields of `CoverageService` the claims are about. -/
structure SvcState where
  cache : Cache
  isCoverageDisplayed : Bool
deriving DecidableEq, Repr

/-- `CoverageService.loadCache()`: logs `LOADING`, awaits discovery, then
reading, then parsing (each of which may throw, aborting the rest),
assigns the parsed mapping to the cache in one step, and logs `READY`.
Returns the new state, the event trace, and `true` iff it completed. -/
def loadCache (env : Env) (s : SvcState) : SvcState × List Event × Bool :=
  let ev0 := [Event.stateLog .loading, Event.discover]
  match env.findCoverageFiles with
  | .error _ => (s, ev0, false)
  | .ok _files =>
    let ev1 := ev0 ++ [Event.logLine, Event.logLine, Event.readFiles]
    match env.loadDataFiles with
    | .error _ => (s, ev1, false)
    | .ok _dataFiles =>
      let ev2 := ev1 ++ [Event.logLine, Event.parse]
      match env.filesToSections with
      | .error _ => (s, ev2, false)
      | .ok dataCoverage =>
        ({ s with cache := dataCoverage },
         ev2 ++ [Event.logLine, Event.cacheWrite dataCoverage, Event.stateLog .ready],
         true)

/-- `CoverageService.loadCacheAndProcess()`:
`try { setLoading(true); await loadCache(); log RENDERING; render;
setStatusBarCoverage; log READY } finally { setLoading(false) }`.
A throw from `loadCache` or from the renderer skips the rest of the `try`
block; the `finally` clause always emits `setLoading false`. -/
def loadCacheAndProcess (env : Env) (s : SvcState) : SvcState × List Event × Bool :=
  let r := loadCache env s
  if r.2.2 then
    if env.renderOk then
      (r.1,
       Event.setLoading true :: r.2.1 ++
         [Event.stateLog .rendering, Event.render r.1.cache,
          Event.statusCoverage
            (setStatusBarCoverage env.finderResult env.hasActiveEditor r.1.cache),
          Event.stateLog .ready, Event.setLoading false],
       true)
    else
      (r.1,
       Event.setLoading true :: r.2.1 ++
         [Event.stateLog .rendering, Event.render r.1.cache, Event.setLoading false],
       false)
  else
    (r.1, Event.setLoading true :: r.2.1 ++ [Event.setLoading false], false)

/-- `CoverageService.handleEditorEvents()` (the editor-focus trigger):
`try { log RENDERING; setLoading(true); render cache; setStatusBarCoverage;
log READY } finally { setLoading(false) }`.  It never calls the discovery,
reading or parsing collaborators and never writes the cache. -/
def handleEditorEvents (env : Env) (s : SvcState) : SvcState × List Event × Bool :=
  if env.renderOk then
    (s, [Event.stateLog .rendering, Event.setLoading true, Event.render s.cache,
         Event.statusCoverage
           (setStatusBarCoverage env.finderResult env.hasActiveEditor s.cache),
         Event.stateLog .ready, Event.setLoading false],
     true)
  else
    (s, [Event.stateLog .rendering, Event.setLoading true, Event.render s.cache,
         Event.setLoading false],
     false)

/-- `CoverageService.removeCoverageForCurrentEditor()`:
`try { setLoading(true); render(empty) } finally { setLoading(false);
isCoverageDisplayed = false }`. -/
def removeCoverageForCurrentEditor (env : Env) (s : SvcState) :
    SvcState × List Event × Bool :=
  ({ s with isCoverageDisplayed := false },
   [Event.setLoading true, Event.render [], Event.setLoading false],
   env.renderOk)

/-- `CoverageService.displayForFile()`: awaits `loadCacheAndProcess` and
only then sets `isCoverageDisplayed = true`; a throw propagates and the
flag keeps its prior value. -/
def displayForFile (env : Env) (s : SvcState) : SvcState × List Event × Bool :=
  let r := loadCacheAndProcess env s
  if r.2.2 then ({ r.1 with isCoverageDisplayed := true }, r.2.1, true)
  else (r.1, r.2.1, false)

/-- `CoverageService.toggleCoverage()`. -/
def toggleCoverage (env : Env) (s : SvcState) : SvcState × List Event × Bool :=
  if s.isCoverageDisplayed then removeCoverageForCurrentEditor env s
  else displayForFile env s

/-- The `updateServiceState` transitions recorded in a trace, in order. -/
def stateLogs (tr : List Event) : List Status :=
  tr.filterMap fun e => match e with | .stateLog st => some st | _ => none

/-- The `setLoading` flags recorded in a trace, in order. -/
def loadingEvents (tr : List Event) : List Bool :=
  tr.filterMap fun e => match e with | .setLoading b => some b | _ => none

/-- Whether a trace contains any suspension point. -/
def hasSuspension (tr : List Event) : Bool := tr.any isSuspension

/-- Whether a trace contains any discovery, reading, parsing or
cache-write event. -/
def touchesCachePipeline (tr : List Event) : Bool :=
  tr.any fun e => match e with
    | .discover => true
    | .readFiles => true
    | .parse => true
    | .cacheWrite _ => true
    | _ => false

/-- One atomic segment of a refresh cycle for the reentrancy analysis.
JavaScript is cooperatively scheduled, so the code between two `await`s is
atomic; in particular `this.cache = dataCoverage` assigns, in one step, a
mapping built entirely by this cycle's parse. -/
inductive CycleStep where
  | discover : CycleStep
  | readFiles : CycleStep
  | parse : CycleStep
  | writeCache : Cache → CycleStep
  | render : CycleStep
deriving DecidableEq, Repr

/-- The atomic segments of one complete refresh cycle whose parse step
produced the mapping `m`. -/
def cycleSteps (m : Cache) : List CycleStep :=
  [.discover, .readFiles, .parse, .writeCache m, .render]

/-- Effect of one atomic segment on the externally observed cache: only
the wholesale assignment touches it. -/
def applyStep (c : Cache) : CycleStep → Cache
  | .writeCache m => m
  | _ => c

/-- The cache after executing a sequence of atomic segments. -/
def runCache (c : Cache) (t : List CycleStep) : Cache := t.foldl applyStep c

/-- `Interleaving xs ys zs`: `zs` is an arbitrary cooperative interleaving
of the two step sequences `xs` and `ys`, each keeping its internal order.
This is more permissive than the real scheduler (which can only switch at
`await`s), so properties proved over it cover the real schedules. -/
inductive Interleaving : List CycleStep → List CycleStep → List CycleStep → Prop where
  | nil : Interleaving [] [] []
  | left : ∀ {xs ys zs} (x : CycleStep),
      Interleaving xs ys zs → Interleaving (x :: xs) ys (x :: zs)
  | right : ∀ {xs ys zs} (y : CycleStep),
      Interleaving xs ys zs → Interleaving xs (y :: ys) (y :: zs)

/-- A concrete section with line data only. -/
def secLinesOnly : Section := { lines := { hit := 1, found := 2 }, branches := none }

/-- A concrete section with line and branch data. -/
def secWithBranches : Section :=
  { lines := { hit := 3, found := 4 }, branches := some { hit := 1, found := 2 } }

/-- A concrete mapping produced by a first refresh cycle. -/
def cacheA : Cache := [("src/a.ts", secLinesOnly)]

/-- A concrete mapping produced by a second refresh cycle. -/
def cacheB : Cache := [("src/b.ts", secWithBranches)]

/-- A concrete schedule: the first cycle runs to completion, then the
second. -/
def burstTrace : List CycleStep := cycleSteps cacheA ++ cycleSteps cacheB

/-- The per-file line percentage slot of a `setCoverage` call
(`undefined` for `setCoverage(undefined)`). -/
def lineOf : SetCoverageCall → Option JsNum
  | .noCoverage => none
  | .values line _ _ _ => some line

/-- The workspace-aggregate line percentage slot of a `setCoverage` call. -/
def totalLineOf : SetCoverageCall → Option JsNum
  | .noCoverage => none
  | .values _ totalLine _ _ => some totalLine

/-- The per-file branch percentage slot of a `setCoverage` call. -/
def branchOf : SetCoverageCall → Option JsNum
  | .noCoverage => none
  | .values _ _ branch _ => some branch

/-- The workspace-aggregate branch percentage slot of a `setCoverage` call. -/
def totalBranchOf : SetCoverageCall → Option JsNum
  | .noCoverage => none
  | .values _ _ _ totalBranch => some totalBranch

/-- A toggler state with a stale warn flag and stale text. -/
def togglerStale : TogglerState :=
  { isActive := some true, isLoading := false,
    lineCoverage := some "80%/90%", isWarn := true }

/-- An environment in which every collaborator succeeds. -/
def envOkFixture : Env :=
  { findCoverageFiles := .ok ["lcov.info"],
    loadDataFiles := .ok [("lcov.info", "TN:")],
    filesToSections := .ok cacheA,
    renderOk := true,
    hasActiveEditor := false,
    finderResult := [] }

/-- An environment in which the discovery collaborator throws. -/
def envFailFixture : Env :=
  { findCoverageFiles := .error (),
    loadDataFiles := .ok [],
    filesToSections := .ok [],
    renderOk := true,
    hasActiveEditor := false,
    finderResult := [] }

/-- The service state right after construction. -/
def svcInit : SvcState := { cache := [], isCoverageDisplayed := false }

lemma mem_of_interleaving_left {xs ys zs : List CycleStep}
    (h : Interleaving xs ys zs) {x : CycleStep} (hx : x ∈ xs) : x ∈ zs := by
  induction h with
  | nil => simp at hx
  | left a _ ih =>
    rcases List.mem_cons.mp hx with h1 | h1
    · exact List.mem_cons.mpr (Or.inl h1)
    · exact List.mem_cons_of_mem a (ih h1)
  | right b _ ih => exact List.mem_cons_of_mem b (ih hx)

lemma write_mem_of_interleaving {xs ys zs : List CycleStep}
    (h : Interleaving xs ys zs) {m : Cache}
    (hm : CycleStep.writeCache m ∈ zs) :
    CycleStep.writeCache m ∈ xs ∨ CycleStep.writeCache m ∈ ys := by
  induction h with
  | nil => simp at hm
  | left a _ ih =>
    rcases List.mem_cons.mp hm with h1 | h1
    · exact Or.inl (List.mem_cons.mpr (Or.inl h1))
    · rcases ih h1 with h2 | h2
      · exact Or.inl (List.mem_cons_of_mem a h2)
      · exact Or.inr h2
  | right b _ ih =>
    rcases List.mem_cons.mp hm with h1 | h1
    · exact Or.inr (List.mem_cons.mpr (Or.inl h1))
    · rcases ih h1 with h2 | h2
      · exact Or.inl h2
      · exact Or.inr (List.mem_cons_of_mem b h2)

lemma runCache_mem_of_writes {mA mB : Cache} :
    ∀ (t : List CycleStep) (c : Cache),
      (∀ m, CycleStep.writeCache m ∈ t → m = mA ∨ m = mB) →
      (c = mA ∨ c = mB) → runCache c t = mA ∨ runCache c t = mB := by
  intro t
  induction t with
  | nil => intro c _ hc; simpa [runCache] using hc
  | cons x rest ih =>
    intro c hw hc
    have hrest : ∀ m, CycleStep.writeCache m ∈ rest → m = mA ∨ m = mB :=
      fun m hm => hw m (List.mem_cons_of_mem x hm)
    simp only [runCache, List.foldl_cons] at *
    cases x with
    | writeCache m =>
      have hmm : m = mA ∨ m = mB := hw m (List.mem_cons_self _ _)
      exact ih m hrest hmm
    | discover => exact ih c hrest hc
    | readFiles => exact ih c hrest hc
    | parse => exact ih c hrest hc
    | render => exact ih c hrest hc

lemma runCache_prefix_cases {mA mB c0 : Cache} :
    ∀ (t : List CycleStep) (c : Cache),
      (∀ m, CycleStep.writeCache m ∈ t → m = mA ∨ m = mB) →
      (c = c0 ∨ c = mA ∨ c = mB) →
      runCache c t = c0 ∨ runCache c t = mA ∨ runCache c t = mB := by
  intro t
  induction t with
  | nil => intro c _ hc; simpa [runCache] using hc
  | cons x rest ih =>
    intro c hw hc
    have hrest : ∀ m, CycleStep.writeCache m ∈ rest → m = mA ∨ m = mB :=
      fun m hm => hw m (List.mem_cons_of_mem x hm)
    simp only [runCache, List.foldl_cons] at *
    cases x with
    | writeCache m =>
      have hmm : m = mA ∨ m = mB := hw m (List.mem_cons_self _ _)
      exact ih m hrest (Or.inr hmm)
    | discover => exact ih c hrest hc
    | readFiles => exact ih c hrest hc
    | parse => exact ih c hrest hc
    | render => exact ih c hrest hc

lemma runCache_eq_of_write_mem {mA mB : Cache} :
    ∀ (t : List CycleStep) (c : Cache),
      (∀ m, CycleStep.writeCache m ∈ t → m = mA ∨ m = mB) →
      (∃ m0, CycleStep.writeCache m0 ∈ t) →
      runCache c t = mA ∨ runCache c t = mB := by
  intro t
  induction t with
  | nil =>
    rintro c _ ⟨m0, hm⟩
    simp at hm
  | cons x rest ih =>
    rintro c hw ⟨m0, hm⟩
    have hrest : ∀ m, CycleStep.writeCache m ∈ rest → m = mA ∨ m = mB :=
      fun m h1 => hw m (List.mem_cons_of_mem x h1)
    simp only [runCache, List.foldl_cons]
    cases x with
    | writeCache m =>
      have hmm : m = mA ∨ m = mB := hw m (List.mem_cons_self _ _)
      exact runCache_mem_of_writes rest m hrest hmm
    | discover =>
      refine ih c hrest ⟨m0, ?_⟩
      rcases List.mem_cons.mp hm with h1 | h1
      · simp at h1
      · exact h1
    | readFiles =>
      refine ih c hrest ⟨m0, ?_⟩
      rcases List.mem_cons.mp hm with h1 | h1
      · simp at h1
      · exact h1
    | parse =>
      refine ih c hrest ⟨m0, ?_⟩
      rcases List.mem_cons.mp hm with h1 | h1
      · simp at h1
      · exact h1
    | render =>
      refine ih c hrest ⟨m0, ?_⟩
      rcases List.mem_cons.mp hm with h1 | h1
      · simp at h1
      · exact h1

/-- C1: for any cooperative interleaving of two refresh cycles whose parse
steps produced the mappings `mA` and `mB`, every externally observable
prefix of the schedule leaves the cache equal to the prior snapshot `c0`
or to one cycle's complete mapping — never a hybrid — and the final cache
is exactly one cycle's complete mapping. -/
theorem interleaved_cycles_cache_integrity (mA mB c0 : Cache) (t : List CycleStep)
    (h : Interleaving (cycleSteps mA) (cycleSteps mB) t) :
    (∀ p suffix, t = p ++ suffix →
      runCache c0 p = c0 ∨ runCache c0 p = mA ∨ runCache c0 p = mB) ∧
    (runCache c0 t = mA ∨ runCache c0 t = mB) := by
  have hw : ∀ m, CycleStep.writeCache m ∈ t → m = mA ∨ m = mB := by
    intro m hm
    rcases write_mem_of_interleaving h hm with h1 | h1
    · left
      simpa [cycleSteps] using h1
    · right
      simpa [cycleSteps] using h1
  constructor
  · intro p suffix hps
    apply runCache_prefix_cases p c0 _ (Or.inl rfl)
    intro m hm
    exact hw m (hps ▸ List.mem_append_left suffix hm)
  · apply runCache_eq_of_write_mem t c0 hw
    exact ⟨mA, mem_of_interleaving_left h (by simp [cycleSteps])⟩

/-- Witness for C1 at a concrete burst of two cycles run back to back. -/
theorem interleaved_cycles_cache_integrity_witness :
    runCache [] burstTrace = cacheA ∨ runCache [] burstTrace = cacheB :=
  (interleaved_cycles_cache_integrity cacheA cacheB [] burstTrace
    (by simp only [burstTrace, cycleSteps, List.cons_append, List.nil_append]
        repeat constructor)).2

lemma foldl_add_map {α : Type} (f : α → Nat) :
    ∀ (l : List α) (a : Nat),
      l.foldl (fun acc it => acc + f it) a = a + (l.map f).sum := by
  intro l
  induction l with
  | nil => intro a; simp
  | cons x rest ih =>
    intro a
    simp [List.foldl_cons, ih, add_assoc]

lemma totalLinesHit_eq (sections : Cache) :
    totalLinesHit sections = (sections.map fun p => p.2.lines.hit).sum := by
  simpa using foldl_add_map (fun p => p.2.lines.hit) sections 0

lemma totalLinesFound_eq (sections : Cache) :
    totalLinesFound sections = (sections.map fun p => p.2.lines.found).sum := by
  simpa using foldl_add_map (fun p => p.2.lines.found) sections 0

lemma totalBranchesHit_eq (sections : Cache) :
    totalBranchesHit sections
      = (sections.map fun p => jsOr (p.2.branches.map fun b => b.hit) 0).sum := by
  simpa using foldl_add_map (fun p => jsOr (p.2.branches.map fun b => b.hit) 0) sections 0

lemma totalBranchesFound_eq (sections : Cache) :
    totalBranchesFound sections
      = (sections.map fun p => jsOr (p.2.branches.map fun b => b.found) 0).sum := by
  simpa using foldl_add_map (fun p => jsOr (p.2.branches.map fun b => b.found) 0) sections 0

/-- C2: with an active editor, for every cache (the empty one included) the
workspace-aggregate line percentage pushed by `setStatusBarCoverage` is the
finite integer `round(100 * Σhit / Σfound)` over all cached sections, and
exactly `0` when `Σfound = 0` — never `NaN` and never `undefined`. -/
theorem setStatusBarCoverage_aggregate_line (finderResult : List Section)
    (sections : Cache) :
    totalLineOf (setStatusBarCoverage finderResult true sections) =
      some (JsNum.int
        (if (sections.map fun p => p.2.lines.found).sum = 0 then 0
         else jround (100 * (Nat.cast (sections.map fun p => p.2.lines.hit).sum : Rat) /
           (Nat.cast (sections.map fun p => p.2.lines.found).sum : Rat)))) := by
  have key : (if totalLinesFound sections = 0 then JsNum.int 0
      else JsNum.int (jround ((totalLinesHit sections : Rat) /
        (totalLinesFound sections : Rat) * 100)))
      = JsNum.int
          (if (sections.map fun p => p.2.lines.found).sum = 0 then 0
           else jround (100 * (Nat.cast (sections.map fun p => p.2.lines.hit).sum : Rat) /
             (Nat.cast (sections.map fun p => p.2.lines.found).sum : Rat))) := by
    rw [totalLinesHit_eq, totalLinesFound_eq, apply_ite JsNum.int]
    by_cases h0 : (sections.map fun p => p.2.lines.found).sum = 0
    · simp [h0]
    · simp only [h0, if_false]
      congr 2
      ring
  simp only [setStatusBarCoverage, Bool.true_eq_false, if_false, totalLineOf]
  rw [key]

lemma setStatusBarCoverage_no_editor (finderResult : List Section)
    (sections : Cache) :
    setStatusBarCoverage finderResult false sections = .noCoverage := by
  simp [setStatusBarCoverage]

lemma applyCall_nonfinite_line (st : TogglerState) (line tc bc btc : JsNum)
    (hline : isFinite (some line) = false) :
    (applyCall st (.values line tc bc btc)).lineCoverage = none ∧
    (applyCall st (.values line tc bc btc)).isWarn = false := by
  simp [applyCall, setCoverage, hline]

/-- C3 counterexample: with an active editor whose file has no matching
section, `setStatusBarCoverage` does not call `setCoverage(undefined)`;
it issues the four-argument call (whose line slot is `NaN`). -/
theorem setStatusBarCoverage_no_match_not_undefined :
    setStatusBarCoverage [] true [("src/a.ts", secLinesOnly)]
      ≠ SetCoverageCall.noCoverage ∧
    lineOf (setStatusBarCoverage [] true [("src/a.ts", secLinesOnly)])
      = some JsNum.nan := by
  constructor
  · simp [setStatusBarCoverage]
  · simp [setStatusBarCoverage, lineOf, pctOf]

/-- C3 amended: when there is no matching section, or the matching
section's `foundLines` is zero, the call `setStatusBarCoverage` issues
carries a non-finite line percentage rather than being literally
`setCoverage(undefined)`; in all of these cases — and in the
missing-editor case, which does use `setCoverage(undefined)` — the
presenter ends with the text cleared and `isWarn = false`, and the
computation is total (no exception escapes). -/
theorem setStatusBarCoverage_degrades_to_no_coverage
    (finderResult : List Section) (sections : Cache) (st : TogglerState)
    (h : finderResult.head? = none ∨
      ∃ sec, finderResult.head? = some sec ∧ sec.lines.found = 0) :
    (applyCall st (setStatusBarCoverage finderResult true sections)).lineCoverage
        = none ∧
    (applyCall st (setStatusBarCoverage finderResult true sections)).isWarn
        = false ∧
    (applyCall st (setStatusBarCoverage finderResult false sections)).lineCoverage
        = none ∧
    (applyCall st (setStatusBarCoverage finderResult false sections)).isWarn
        = false := by
  have hfalse := setStatusBarCoverage_no_editor finderResult sections
  have hne : (true = false) = False := by simp
  have hmain :
      (applyCall st (setStatusBarCoverage finderResult true sections)).lineCoverage
          = none ∧
      (applyCall st (setStatusBarCoverage finderResult true sections)).isWarn
          = false := by
    rcases h with h1 | ⟨sec, h1, h2⟩
    · simp only [setStatusBarCoverage, hne, if_false, h1]
      exact applyCall_nonfinite_line st _ _ _ _ (by simp [pctOf, isFinite, h1])
    · simp only [setStatusBarCoverage, hne, if_false, h1]
      refine applyCall_nonfinite_line st _ _ _ _ ?_
      show isFinite (some (pctOf (some sec.lines.hit) (some sec.lines.found))) = false
      rcases Nat.eq_zero_or_pos sec.lines.hit with h3 | h3
      · simp [pctOf, h2, h3, isFinite]
      · simp [pctOf, h2, Nat.pos_iff_ne_zero.mp h3, isFinite]
  exact ⟨hmain.1, hmain.2, by simp [hfalse, applyCall, setCoverage, isFinite],
    by simp [hfalse, applyCall, setCoverage, isFinite]⟩

/-- Witness for C3 amended, at an empty finder result over a one-entry
cache and a stale presenter state. -/
theorem setStatusBarCoverage_degrades_witness :
    (applyCall togglerStale
      (setStatusBarCoverage [] true [("src/a.ts", secLinesOnly)])).lineCoverage
        = none ∧
    (applyCall togglerStale
      (setStatusBarCoverage [] true [("src/a.ts", secLinesOnly)])).isWarn
        = false :=
  ⟨(setStatusBarCoverage_degrades_to_no_coverage [] [("src/a.ts", secLinesOnly)]
      togglerStale (Or.inl rfl)).1,
   (setStatusBarCoverage_degrades_to_no_coverage [] [("src/a.ts", secLinesOnly)]
      togglerStale (Or.inl rfl)).2.1⟩

/-- C4 counterexample: a cycle whose discovery step throws terminates by
throwing, yet `ERROR` is never logged and no log line at all records the
failure — the trace ends at the `finally` cleanup. -/
theorem loadCacheAndProcess_failure_silent :
    (loadCacheAndProcess envFailFixture svcInit).2.2 = false ∧
    Status.error ∉ stateLogs (loadCacheAndProcess envFailFixture svcInit).2.1 ∧
    (loadCacheAndProcess envFailFixture svcInit).2.1 =
      [Event.setLoading true, Event.stateLog .loading, Event.discover,
       Event.setLoading false] := by
  refine ⟨rfl, ?_, rfl⟩
  decide

/-- C4 amended: no failure ever transitions the service to `Error` or logs
it — the `Status.error` member is dead code, `loadCacheAndProcess` has no
`catch`, and the exception propagates to the caller; the `finally` clause
still clears the loading indicator on every exit path. -/
theorem loadCacheAndProcess_never_logs_error (env : Env) (s : SvcState) :
    Status.error ∉ stateLogs (loadCacheAndProcess env s).2.1 ∧
    (loadingEvents (loadCacheAndProcess env s).2.1).getLast? = some false := by
  obtain ⟨f, d, p, r, a, fr⟩ := env
  cases f <;> cases d <;> cases p <;> cases r <;>
    simp [loadCacheAndProcess, loadCache, stateLogs, loadingEvents]

/-- Witness for C4 amended at the concrete failing environment. -/
theorem loadCacheAndProcess_never_logs_error_witness :
    Status.error ∉ stateLogs (loadCacheAndProcess envFailFixture svcInit).2.1 :=
  (loadCacheAndProcess_never_logs_error envFailFixture svcInit).1

/-- C5: in every environment, `loadCacheAndProcess` emits
`setLoading(true)` as its very first event (hence before any suspension
point) and the last loading event of its trace is `setLoading(false)` on
every exit path, throwing ones included; `handleEditorEvents` and
`removeCoverageForCurrentEditor` contain no suspension point and likewise
end their loading events with `setLoading(false)`. -/
theorem loading_indicator_scoped (env : Env) (s : SvcState) :
    ((loadCacheAndProcess env s).2.1.head? = some (Event.setLoading true) ∧
     (loadingEvents (loadCacheAndProcess env s).2.1).getLast? = some false) ∧
    (hasSuspension (handleEditorEvents env s).2.1 = false ∧
     (loadingEvents (handleEditorEvents env s).2.1).getLast? = some false) ∧
    ((removeCoverageForCurrentEditor env s).2.1.head?
        = some (Event.setLoading true) ∧
     hasSuspension (removeCoverageForCurrentEditor env s).2.1 = false ∧
     (loadingEvents (removeCoverageForCurrentEditor env s).2.1).getLast?
        = some false) := by
  obtain ⟨f, d, p, r, a, fr⟩ := env
  cases f <;> cases d <;> cases p <;> cases r <;>
    simp [loadCacheAndProcess, loadCache, handleEditorEvents,
      removeCoverageForCurrentEditor, loadingEvents, hasSuspension, isSuspension]

/-- C8 counterexample: on a fully successful cycle the logged state
sequence is `LOADING, READY, RENDERING, READY` — `loadCache` logs `READY`
before `loadCacheAndProcess` logs `RENDERING` — which differs from the
claimed `LOADING, RENDERING, READY`. -/
theorem refresh_state_sequence_counterexample :
    stateLogs (loadCacheAndProcess envOkFixture svcInit).2.1
      = [Status.loading, Status.ready, Status.rendering, Status.ready] ∧
    stateLogs (loadCacheAndProcess envOkFixture svcInit).2.1
      ≠ [Status.loading, Status.rendering, Status.ready] := by
  constructor
  · decide
  · decide

/-- C8 amended: a refresh cycle that completes successfully logs exactly
`LOADING, READY, RENDERING, READY` (with the extra `READY` logged by
`loadCache` between `LOADING` and `RENDERING`), and no cycle — successful
or failing — ever logs `ERROR`. -/
theorem refresh_state_sequence (env : Env) (s : SvcState) :
    ((loadCacheAndProcess env s).2.2 = true →
      stateLogs (loadCacheAndProcess env s).2.1
        = [Status.loading, Status.ready, Status.rendering, Status.ready]) ∧
    Status.error ∉ stateLogs (loadCacheAndProcess env s).2.1 := by
  obtain ⟨f, d, p, r, a, fr⟩ := env
  cases f <;> cases d <;> cases p <;> cases r <;>
    simp [loadCacheAndProcess, loadCache, stateLogs]

/-- Witness for C8 amended at the concrete all-success environment. -/
theorem refresh_state_sequence_witness :
    stateLogs (loadCacheAndProcess envOkFixture svcInit).2.1
      = [Status.loading, Status.ready, Status.rendering, Status.ready] :=
  (refresh_state_sequence envOkFixture svcInit).1 (by decide)

/-- C9: the editor-focus handler leaves the entire service state — in
particular the cache — unchanged, performs no discovery, reading, parsing
or cache write, re-renders the existing cache, and (when the renderer does
not throw) recomputes the status-bar aggregate from that same cache. -/
theorem handleEditorEvents_frame (env : Env) (s : SvcState) :
    (handleEditorEvents env s).1 = s ∧
    (handleEditorEvents env s).1.cache = s.cache ∧
    touchesCachePipeline (handleEditorEvents env s).2.1 = false ∧
    Event.render s.cache ∈ (handleEditorEvents env s).2.1 ∧
    (env.renderOk = true →
      Event.statusCoverage
          (setStatusBarCoverage env.finderResult env.hasActiveEditor s.cache)
        ∈ (handleEditorEvents env s).2.1) := by
  obtain ⟨f, d, p, r, a, fr⟩ := env
  cases r <;>
    simp [handleEditorEvents, touchesCachePipeline]

/-- Witness for C9 at a concrete environment and a populated cache. -/
theorem handleEditorEvents_frame_witness :
    (handleEditorEvents envOkFixture { cache := cacheA, isCoverageDisplayed := true }).1
      = { cache := cacheA, isCoverageDisplayed := true } ∧
    Event.statusCoverage (setStatusBarCoverage [] false cacheA)
      ∈ (handleEditorEvents envOkFixture
          { cache := cacheA, isCoverageDisplayed := true }).2.1 :=
  ⟨(handleEditorEvents_frame envOkFixture
      { cache := cacheA, isCoverageDisplayed := true }).1,
   (handleEditorEvents_frame envOkFixture
      { cache := cacheA, isCoverageDisplayed := true }).2.2.2.2 rfl⟩

lemma loadCacheAndProcess_flag (env : Env) (s : SvcState) :
    (loadCacheAndProcess env s).1.isCoverageDisplayed = s.isCoverageDisplayed := by
  obtain ⟨f, d, p, r, a, fr⟩ := env
  cases f <;> cases d <;> cases p <;> cases r <;>
    simp [loadCacheAndProcess, loadCache]

/-- C10: `displayForFile` sets `isCoverageDisplayed` only after the cycle
completes without throwing; on a throw the flag keeps its prior value, so
a `toggleCoverage` that follows a failed initial display runs another
display rather than clearing the render. -/
theorem displayForFile_flag_discipline (env : Env) (s : SvcState) :
    ((displayForFile env s).2.2 = true →
      (displayForFile env s).1.isCoverageDisplayed = true) ∧
    ((displayForFile env s).2.2 = false →
      (displayForFile env s).1.isCoverageDisplayed = s.isCoverageDisplayed) ∧
    (s.isCoverageDisplayed = false → (displayForFile env s).2.2 = false →
      ∀ env2, toggleCoverage env2 (displayForFile env s).1
        = displayForFile env2 (displayForFile env s).1) := by
  by_cases hok : (loadCacheAndProcess env s).2.2
  · refine ⟨fun _ => ?_, fun hfail => ?_, fun hnd hfail => ?_⟩
    · simp [displayForFile, hok]
    · simp [displayForFile, hok] at hfail
    · simp [displayForFile, hok] at hfail
  · have hflag := loadCacheAndProcess_flag env s
    have hres : (displayForFile env s).1.isCoverageDisplayed
        = s.isCoverageDisplayed := by
      simp [displayForFile, hok, hflag]
    refine ⟨fun hyes => ?_, fun _ => hres, fun hnd _ env2 => ?_⟩
    · simp [displayForFile, hok] at hyes
    · have : (displayForFile env s).1.isCoverageDisplayed = false := by
        rw [hres, hnd]
      simp [toggleCoverage, this]

/-- Witness for C10: after a display attempt whose discovery throws, the
flag is still `false` and a subsequent toggle runs the display path. -/
theorem displayForFile_flag_discipline_witness :
    (displayForFile envFailFixture svcInit).1.isCoverageDisplayed = false ∧
    toggleCoverage envOkFixture (displayForFile envFailFixture svcInit).1
      = displayForFile envOkFixture (displayForFile envFailFixture svcInit).1 := by
  have h := displayForFile_flag_discipline envFailFixture svcInit
  exact ⟨h.2.1 (by decide), h.2.2 rfl (by decide) envOkFixture⟩

lemma jsOrZero_int (z : Int) : jsOrZero (some (.int z)) = z := by
  rcases eq_or_ne z 0 with h | h <;> simp [jsOrZero, h]

/-- C6: the full input/output contract of `StatusBarToggler.setCoverage`:
with all four percentages finite the text is
`"{line},{branch}%/{totalLine},{totalBranch}%"` and `isWarn` holds exactly
when `totalLine < 60` or `totalBranch < 40` (so `setCoverage(55,55,70,70)`
warns with text `"55,70%/55,70%"`); with only line and total-line present
the text is `"{line}%/{totalLine}%"` and `isWarn = false`; with only line
present the text is `"{line}%"` and `isWarn = false`; with the line
percentage absent the text is cleared and `isWarn = false`; and `isWarn`
is recomputed from scratch on every call, so a stale warn never survives. -/
theorem setCoverage_format (st : TogglerState) (l tl b tb : Int)
    (lp2 tlp2 bp2 tbp2 : Option JsNum) (w : Bool) :
    ((setCoverage st (some (.int l)) (some (.int tl)) (some (.int b))
        (some (.int tb))).lineCoverage = some s!"{l},{b}%/{tl},{tb}%" ∧
     ((setCoverage st (some (.int l)) (some (.int tl)) (some (.int b))
        (some (.int tb))).isWarn = true ↔ (tl < 60 ∨ tb < 40))) ∧
    ((setCoverage st (some (.int l)) (some (.int tl)) none none).lineCoverage
        = some s!"{l}%/{tl}%" ∧
     (setCoverage st (some (.int l)) (some (.int tl)) none none).isWarn
        = false) ∧
    ((setCoverage st (some (.int l)) none none none).lineCoverage
        = some s!"{l}%" ∧
     (setCoverage st (some (.int l)) none none none).isWarn = false) ∧
    ((setCoverage st none tlp2 bp2 tbp2).lineCoverage = none ∧
     (setCoverage st none tlp2 bp2 tbp2).isWarn = false) ∧
    ((setCoverage st (some (.int 55)) (some (.int 55)) (some (.int 70))
        (some (.int 70))).isWarn = true ∧
     (setCoverage st (some (.int 55)) (some (.int 55)) (some (.int 70))
        (some (.int 70))).lineCoverage = some "55,70%/55,70%") ∧
    (setCoverage { st with isWarn := w } lp2 tlp2 bp2 tbp2).isWarn
        = (setCoverage st lp2 tlp2 bp2 tbp2).isWarn := by
    refine ⟨⟨?_, ?_⟩, ⟨?_, ?_⟩, ⟨?_, ?_⟩, ⟨?_, ?_⟩, ⟨?_, ?_⟩, ?_⟩
    · simp [setCoverage, isFinite, jsText]
      rfl
    · simp [setCoverage, isFinite, jsOrZero_int]
    · simp [setCoverage, isFinite, jsText]
      rfl
    · simp [setCoverage, isFinite]
    · simp [setCoverage, isFinite, jsText]
      rfl
    · simp [setCoverage, isFinite]
    · simp [setCoverage, isFinite]
    · simp [setCoverage, isFinite]
    · simp [setCoverage, isFinite, jsOrZero_int]
    · simp [setCoverage, isFinite, jsText]
      rfl
    · by_cases h1 : isFinite lp2
      · by_cases h2 : isFinite tlp2
        · by_cases h3 : isFinite bp2 && isFinite tbp2
          · simp [setCoverage, h1, h2, h3]
          · simp [setCoverage, h1, h2, h3]
        · simp [setCoverage, h1, h2]
      · simp [setCoverage, h1]

/-- C7: a section lacking branch data yields a per-file branch percentage
computed from `hit = 0`, `found = 1` — the finite integer `0`, not
`undefined` — contributes `0` hit and `0` found to the workspace branch
aggregate, and when the total branch found is `0` the aggregate branch
percentage is the finite integer `0`. -/
theorem branch_defaulting (finderResult : List Section) (sections : Cache)
    (sec : Section) (pre post : Cache) (k : String)
    (hsec : sec.branches = none) :
    (finderResult.head? = some sec →
      branchOf (setStatusBarCoverage finderResult true sections)
        = some (JsNum.int 0)) ∧
    totalBranchesHit (pre ++ (k, sec) :: post) = totalBranchesHit (pre ++ post) ∧
    totalBranchesFound (pre ++ (k, sec) :: post)
        = totalBranchesFound (pre ++ post) ∧
    (totalBranchesFound sections = 0 →
      totalBranchOf (setStatusBarCoverage finderResult true sections)
        = some (JsNum.int 0)) := by
  have hzero : jround 0 = 0 := by
    norm_num [jround]
  refine ⟨fun h => ?_, ?_, ?_, fun h0 => ?_⟩
  · simp [setStatusBarCoverage, branchOf, h, hsec, jsOr, pctOf, hzero]
  · rw [totalBranchesHit_eq, totalBranchesHit_eq]
    simp [hsec, jsOr]
  · rw [totalBranchesFound_eq, totalBranchesFound_eq]
    simp [hsec, jsOr]
  · simp [setStatusBarCoverage, totalBranchOf, h0]

/-- Witness for C7 at a concrete line-only section. -/
theorem branch_defaulting_witness :
    branchOf (setStatusBarCoverage [secLinesOnly] true cacheA)
      = some (JsNum.int 0) ∧
    totalBranchesHit [("src/a.ts", secLinesOnly)] = totalBranchesHit [] ∧
    totalBranchOf (setStatusBarCoverage [secLinesOnly] true [])
      = some (JsNum.int 0) := by
  have h1 := branch_defaulting [secLinesOnly] cacheA secLinesOnly [] [] "src/a.ts" rfl
  have h2 := branch_defaulting [secLinesOnly] [] secLinesOnly [] [] "src/a.ts" rfl
  exact ⟨h1.1 rfl, h1.2.1, h2.2.2.2 rfl⟩

end CoverageGutters
